import Mathlib

/-!
A verification development for the Passage digital-will execution pipeline
(`src/backend`). Each Python routine the properties depend on is embedded
as an executable Lean definition; external effects (the browser-use agent,
the ledger RPC, the Lit unseal call) appear as explicit oracles, so the
definitions compute the event traces and outcomes the real code produces
for a given behaviour of those collaborators.
-/

namespace Passage

/-- Result of one `agent.run()` invocation inside
`DigitalExecutor._run_task_with_retry` (`src/backend/agent/executor.py`):
the call either returns (`ok`, with `none` modelling a falsy result object,
for which the code substitutes the output text `"Task completed"`) or raises
an exception whose `str(e)` is `msg`. -/
inductive AttemptResult where
  | ok (result : Option String)
  | err (msg : String)
  deriving Repr, DecidableEq

/-- Whether the attempt raised. -/
def AttemptResult.isErr : AttemptResult → Bool
  | .ok _ => false
  | .err _ => true

/-- The WebSocket progress events `DigitalExecutor` emits through
`_emit_event` (field `type` plus the parts of `data` the properties track;
`_emit_event` itself swallows every send failure, so emitting never raises). -/
inductive Event where
  | execution_started
  | initializing
  | step (desc : String) (status : String)
  | screenshot
  | retry (attempt : Nat) (maxRetries : Nat)
  | error (msg : String)
  | execution_completed (success : Bool) (info : String)
  deriving Repr, DecidableEq

/-- The result dictionary of `run_task` / `_run_task_with_retry`.
`attempts = none` models the outer exception path of `run_task`, whose
dictionary carries no `"attempts"` key.  The all-retries-failed dictionary
in the source also has a `"screenshot"` key, but the local `screenshot_path`
it reads is never bound anywhere in that function, so the key is always
`None` and is not modelled. -/
structure Outcome where
  success : Bool
  output : Option String
  error : Option String
  attempts : Option Nat
  deriving Repr, DecidableEq

/-- Python `str` applied to an optional error text: `None` prints as `"None"`. -/
def pyStr : Option String → String
  | none => "None"
  | some s => s

/-- The fixed part of the terminal failure message of `_run_task_with_retry`. -/
def failMsgStem (maxRetries : Nat) : String :=
  "Task failed after " ++ toString maxRetries ++ " attempts: "

/-- `f"Task failed after {max_retries} attempts: {str(last_error)}"`. -/
def failMsg (maxRetries : Nat) (lastErr : Option String) : String :=
  failMsgStem maxRetries ++ pyStr lastErr

/-- `f"Executing task (attempt {attempt}/{max_retries})"`. -/
def attemptStepDesc (attempt maxRetries : Nat) : String :=
  "Executing task (attempt " ++ toString attempt ++ "/" ++ toString maxRetries ++ ")"

/-- The `for attempt in range(1, max_retries + 1)` loop of
`DigitalExecutor._run_task_with_retry`, entered with `remaining` attempts
still to run (the current attempt number is `maxRetries - remaining + 1`)
and `lastErr` the `last_error` accumulator.  `agentR n` is what `agent.run()`
does on attempt `n`; `shot n` is whether the screenshot capture on attempt
`n` emits an event (`context.pages` nonempty and `capture_screenshot` not
`None`; `capture_screenshot` catches its own exceptions, so it never raises).
Returns the events the loop emits and the dictionary it returns. -/
def retryFrom (agentR : Nat → AttemptResult) (shot : Nat → Bool) (maxRetries : Nat) :
    Nat → Option String → List Event × Outcome
  | 0, lastErr =>
      ([], { success := false, output := none,
             error := some (failMsg maxRetries lastErr), attempts := some maxRetries })
  | remaining + 1, _ =>
      let attempt := maxRetries - remaining
      let desc := attemptStepDesc attempt maxRetries
      match agentR attempt with
      | .ok result =>
          let out := result.getD "Task completed"
          ([Event.step desc "in_progress"]
             ++ (if shot attempt then [Event.screenshot] else [])
             ++ [Event.step desc "completed", Event.execution_completed true out],
           { success := true, output := some out, error := none, attempts := some attempt })
      | .err msg =>
          let failEvs := [Event.step desc "in_progress", Event.step desc "failed"]
             ++ (if shot attempt then [Event.screenshot] else [])
          if remaining = 0 then
            (failEvs ++ [Event.execution_completed false (failMsg maxRetries (some msg))],
             { success := false, output := none,
               error := some (failMsg maxRetries (some msg)), attempts := some maxRetries })
          else
            let rest := retryFrom agentR shot maxRetries remaining (some msg)
            (failEvs ++ [Event.retry attempt maxRetries] ++ rest.1, rest.2)

/-- `DigitalExecutor._run_task_with_retry` itself (`last_error` starts as `None`). -/
def runTaskWithRetry (agentR : Nat → AttemptResult) (shot : Nat → Bool)
    (maxRetries : Nat) : List Event × Outcome :=
  retryFrom agentR shot maxRetries maxRetries none

/-- Where `run_task`'s `try:` block raises, if anywhere, before it reaches the
retry loop. -/
inductive SetupResult where
  | ok
  | failContext (msg : String)
  | failWrapper (msg : String)
  | failAgent (msg : String)
  deriving Repr, DecidableEq

/-- Step name used by `run_task` around browser-context creation. -/
def ctxDesc : String := "Creating browser context"

/-- Step name used by `run_task` around agent construction. -/
def agentDesc : String := "Initializing AI agent"

/-- The `try`/`except` body of `DigitalExecutor.run_task` after initialization:
the step events around context creation and agent construction, then the retry
loop (`max_retries=3`); any exception in the setup stages is caught by the
`except`, which emits an `error` event and returns a failure dictionary without
an `"attempts"` key.  The `session_data` branch is not a parameter because both
branches emit the same events, and the session contents reach only the agent,
which is abstracted by `agentR`. -/
def runTaskBody (setup : SetupResult) (agentR : Nat → AttemptResult)
    (shot : Nat → Bool) : List Event × Outcome :=
  match setup with
  | .failContext msg =>
      ([Event.step ctxDesc "in_progress", Event.error msg],
       { success := false, output := none, error := some msg, attempts := none })
  | .failWrapper msg =>
      ([Event.step ctxDesc "in_progress", Event.step ctxDesc "completed", Event.error msg],
       { success := false, output := none, error := some msg, attempts := none })
  | .failAgent msg =>
      ([Event.step ctxDesc "in_progress", Event.step ctxDesc "completed",
        Event.step agentDesc "in_progress", Event.error msg],
       { success := false, output := none, error := some msg, attempts := none })
  | .ok =>
      let r := runTaskWithRetry agentR shot 3
      ([Event.step ctxDesc "in_progress", Event.step ctxDesc "completed",
        Event.step agentDesc "in_progress", Event.step agentDesc "completed"] ++ r.1,
       r.2)

/-- `DigitalExecutor.run_task` for a given execution id: the emitted events and
either the returned dictionary (`Except.ok`) or the text of an exception that
escapes `run_task` (`Except.error`) — only `self._initialize()`, called outside
the `try:` when `initialized = false`, can raise uncaught (`initFails`). -/
def runTask (initialized : Bool) (initFails : Option String) (setup : SetupResult)
    (agentR : Nat → AttemptResult) (shot : Nat → Bool) :
    List Event × Except String Outcome :=
  if initialized then
    let r := runTaskBody setup agentR shot
    (Event.execution_started :: r.1, .ok r.2)
  else
    match initFails with
    | some msg => ([Event.execution_started, Event.initializing], .error msg)
    | none =>
        let r := runTaskBody setup agentR shot
        (Event.execution_started :: Event.initializing :: r.1, .ok r.2)

/-- An attempt is started exactly when a `step` event with status
`"in_progress"` is emitted inside the retry loop. -/
def isAttemptStart : Event → Bool
  | .step _ status => status == "in_progress"
  | _ => false

/-- Recognizes `retry` events. -/
def isRetryEvent : Event → Bool
  | .retry _ _ => true
  | _ => false

/-- Recognizes `execution_completed` events with `success: True`. -/
def isCompletedTrue : Event → Bool
  | .execution_completed true _ => true
  | _ => false


theorem countP_isAttemptStart_retryFrom (agentR : Nat → AttemptResult) (shot : Nat → Bool)
    (maxRetries : Nat) : ∀ remaining lastErr,
    ((retryFrom agentR shot maxRetries remaining lastErr).1.countP isAttemptStart) ≤ remaining := by
  intro remaining
  induction remaining with
  | zero => intro lastErr; simp [retryFrom]
  | succ r ih =>
    intro lastErr
    simp only [retryFrom]
    cases hA : agentR (maxRetries - r) with
    | ok result =>
      cases hs : shot (maxRetries - r) <;>
        simp [hs, List.countP_append, List.countP_cons, isAttemptStart]
    | err msg =>
      by_cases hr : r = 0
      · subst hr
        cases hs : shot (maxRetries - 0) <;>
          simp [hs, List.countP_append, List.countP_cons, isAttemptStart]
      · have := ih (some msg)
        cases hs : shot (maxRetries - r) <;>
          simp [hs, hr, List.countP_append, List.countP_cons, isAttemptStart] <;>
          omega

theorem retryFrom_all_fail (agentR : Nat → AttemptResult) (shot : Nat → Bool)
    (maxRetries : Nat) : ∀ remaining lastErr, 0 < remaining → remaining ≤ maxRetries →
    (∀ k, maxRetries - remaining < k → k ≤ maxRetries → (agentR k).isErr = true) →
    ∃ m, agentR maxRetries = AttemptResult.err m ∧
      (retryFrom agentR shot maxRetries remaining lastErr).2 =
        { success := false, output := none,
          error := some (failMsg maxRetries (some m)), attempts := some maxRetries } ∧
      (retryFrom agentR shot maxRetries remaining lastErr).1.countP isRetryEvent
        = remaining - 1 := by
  intro remaining
  induction remaining with
  | zero => intro lastErr h; omega
  | succ r ih =>
    intro lastErr hpos hle hall
    have hcur : (agentR (maxRetries - r)).isErr = true := by
      apply hall <;> omega
    cases hA : agentR (maxRetries - r) with
    | ok result => rw [hA] at hcur; simp [AttemptResult.isErr] at hcur
    | err msg =>
      by_cases hr : r = 0
      · subst hr
        have hm : maxRetries - 0 = maxRetries := by omega
        rw [hm] at hA
        refine ⟨msg, hA, ?_, ?_⟩ <;>
          · simp only [retryFrom, hm, hA]
            cases hs : shot maxRetries <;>
              simp [hs, List.countP_append, List.countP_cons, isRetryEvent]
      · obtain ⟨m, hm, hout, hcount⟩ := ih (some msg) (by omega) (by omega)
          (by intro k hk1 hk2; exact hall k (by omega) hk2)
        refine ⟨m, hm, ?_, ?_⟩
        · simp only [retryFrom, hA, hr]
          simpa using hout
        · simp only [retryFrom, hA, hr]
          cases hs : shot (maxRetries - r) <;>
            simp [hs, List.countP_append, List.countP_cons, isRetryEvent, hcount] <;>
            omega

theorem retryFrom_success (agentR : Nat → AttemptResult) (shot : Nat → Bool)
    (maxRetries : Nat) : ∀ remaining lastErr, remaining ≤ maxRetries →
    (∃ k, maxRetries - remaining < k ∧ k ≤ maxRetries ∧ (agentR k).isErr = false) →
    ∃ evs out, (retryFrom agentR shot maxRetries remaining lastErr).1
        = evs ++ [Event.execution_completed true out] ∧
      evs.countP isCompletedTrue = 0 ∧
      (retryFrom agentR shot maxRetries remaining lastErr).2.success = true := by
  intro remaining
  induction remaining with
  | zero =>
    intro lastErr hle ⟨k, hk1, hk2, _⟩
    omega
  | succ r ih =>
    intro lastErr hle hex
    cases hA : agentR (maxRetries - r) with
    | ok result =>
      refine ⟨[Event.step (attemptStepDesc (maxRetries - r) maxRetries) "in_progress"]
          ++ (if shot (maxRetries - r) then [Event.screenshot] else [])
          ++ [Event.step (attemptStepDesc (maxRetries - r) maxRetries) "completed"],
        result.getD "Task completed", ?_, ?_, ?_⟩
      · simp only [retryFrom, hA]
        cases hs : shot (maxRetries - r) <;> simp [hs]
      · cases hs : shot (maxRetries - r) <;>
          simp [hs, List.countP_append, List.countP_cons, isCompletedTrue]
      · simp only [retryFrom, hA]
    | err msg =>
      obtain ⟨k, hk1, hk2, hk3⟩ := hex
      have hkne : k ≠ maxRetries - r := by
        intro he; rw [he, hA] at hk3; simp [AttemptResult.isErr] at hk3
      by_cases hr : r = 0
      · exfalso; apply hkne; omega
      · obtain ⟨evs, out, htrace, hcount, hsucc⟩ := ih (some msg) (by omega)
          ⟨k, by omega, hk2, hk3⟩
        refine ⟨([Event.step (attemptStepDesc (maxRetries - r) maxRetries) "in_progress",
                  Event.step (attemptStepDesc (maxRetries - r) maxRetries) "failed"]
            ++ (if shot (maxRetries - r) then [Event.screenshot] else [])
            ++ [Event.retry (maxRetries - r) maxRetries]) ++ evs, out, ?_, ?_, ?_⟩
        · simp only [retryFrom, hA, hr]
          cases hs : shot (maxRetries - r) <;> simp [hs, htrace]
        · cases hs : shot (maxRetries - r) <;>
            simp [hs, List.countP_append, List.countP_cons, isCompletedTrue, hcount]
        · simp only [retryFrom, hA, hr]
          exact hsucc



def alwaysFailAgent : Nat → AttemptResult := fun _ => AttemptResult.err "boom"

def firstTryAgent : Nat → AttemptResult := fun _ => AttemptResult.ok (some "done")

def noShot : Nat → Bool := fun _ => false

/-- C1: the retry loop of `DigitalExecutor._run_task_with_retry` starts at most
`max_retries` attempts (counted by its attempt-start `step` events), and when
every attempt fails it returns an outcome with `success = false`,
`attempts = max_retries`, and an error text that is the fixed failure stem
followed verbatim by the last attempt's error text. -/
theorem retry_loop_bound_and_terminal_failure (agentR : Nat → AttemptResult)
    (shot : Nat → Bool) (maxRetries : Nat) (hpos : 0 < maxRetries) :
    (runTaskWithRetry agentR shot maxRetries).1.countP isAttemptStart ≤ maxRetries ∧
    ((∀ k, 1 ≤ k → k ≤ maxRetries → (agentR k).isErr = true) →
      ∃ m, agentR maxRetries = AttemptResult.err m ∧
        (runTaskWithRetry agentR shot maxRetries).2 =
          { success := false, output := none,
            error := some (failMsgStem maxRetries ++ m), attempts := some maxRetries }) := by
  constructor
  · exact countP_isAttemptStart_retryFrom agentR shot maxRetries maxRetries none
  · intro hall
    obtain ⟨m, hm, hout, _⟩ := retryFrom_all_fail agentR shot maxRetries maxRetries none
      hpos le_rfl (fun k h1 h2 => hall k (by omega) h2)
    exact ⟨m, hm, hout⟩

theorem retry_loop_bound_and_terminal_failure_witness :
    0 < 3 ∧
    ((runTaskWithRetry alwaysFailAgent noShot 3).1.countP isAttemptStart ≤ 3 ∧
     ((∀ k, 1 ≤ k → k ≤ 3 → (alwaysFailAgent k).isErr = true) →
       ∃ m, alwaysFailAgent 3 = AttemptResult.err m ∧
         (runTaskWithRetry alwaysFailAgent noShot 3).2 =
           { success := false, output := none,
             error := some (failMsgStem 3 ++ m), attempts := some 3 })) :=
  ⟨by decide, retry_loop_bound_and_terminal_failure alwaysFailAgent noShot 3 (by decide)⟩

/-- C3: when every attempt of the retry loop fails, the number of `retry`
events emitted equals the reported attempt count minus one (a `retry` event
follows every failed attempt except the last). -/
theorem failing_execution_retry_event_count (agentR : Nat → AttemptResult)
    (shot : Nat → Bool) (maxRetries : Nat) (hpos : 0 < maxRetries)
    (hall : ∀ k, 1 ≤ k → k ≤ maxRetries → (agentR k).isErr = true) :
    ∃ a, (runTaskWithRetry agentR shot maxRetries).2.attempts = some a ∧
      (runTaskWithRetry agentR shot maxRetries).1.countP isRetryEvent = a - 1 := by
  obtain ⟨m, hm, hout, hcount⟩ := retryFrom_all_fail agentR shot maxRetries maxRetries none
    hpos le_rfl (fun k h1 h2 => hall k (by omega) h2)
  refine ⟨maxRetries, ?_, hcount⟩
  show (retryFrom agentR shot maxRetries maxRetries none).2.attempts = some maxRetries
  rw [hout]

theorem failing_execution_retry_event_count_witness :
    0 < 3 ∧ (∃ a, (runTaskWithRetry alwaysFailAgent noShot 3).2.attempts = some a ∧
      (runTaskWithRetry alwaysFailAgent noShot 3).1.countP isRetryEvent = a - 1) :=
  ⟨by decide, failing_execution_retry_event_count alwaysFailAgent noShot 3 (by decide)
    (fun _ _ _ => rfl)⟩

/-- C2: for every `run_task` invocation in which the automation capability's
`run` call returns on some attempt (setup reached the retry loop and some
attempt within the budget succeeds), the event trace of that execution id
contains exactly one `execution_completed` event with `success: True`, and that
event is the last event emitted. -/
theorem success_completed_event_once_and_last (initialized : Bool)
    (initFails : Option String) (setup : SetupResult) (agentR : Nat → AttemptResult)
    (shot : Nat → Bool) (hinit : initialized = true ∨ initFails = none)
    (hsetup : setup = SetupResult.ok)
    (hsucc : ∃ k, 1 ≤ k ∧ k ≤ 3 ∧ (agentR k).isErr = false) :
    ∃ evs out, (runTask initialized initFails setup agentR shot).1
        = evs ++ [Event.execution_completed true out] ∧
      evs.countP isCompletedTrue = 0 ∧
      (runTask initialized initFails setup agentR shot).1.countP isCompletedTrue = 1 := by
  obtain ⟨k, h1, h2, h3⟩ := hsucc
  obtain ⟨evs, out, htrace, hcount, _⟩ := retryFrom_success agentR shot 3 3 none le_rfl
    ⟨k, by omega, h2, h3⟩
  subst hsetup
  have hbody : (runTaskBody SetupResult.ok agentR shot).1
      = ([Event.step ctxDesc "in_progress", Event.step ctxDesc "completed",
          Event.step agentDesc "in_progress", Event.step agentDesc "completed"] ++ evs)
        ++ [Event.execution_completed true out] := by
    simp [runTaskBody, runTaskWithRetry, htrace]
  have hbodycount : ([Event.step ctxDesc "in_progress", Event.step ctxDesc "completed",
          Event.step agentDesc "in_progress", Event.step agentDesc "completed"]
          ++ evs).countP isCompletedTrue = 0 := by
    simp [List.countP_append, List.countP_cons, isCompletedTrue, hcount]
  cases initialized with
  | true =>
    refine ⟨Event.execution_started
        :: ([Event.step ctxDesc "in_progress", Event.step ctxDesc "completed",
             Event.step agentDesc "in_progress", Event.step agentDesc "completed"] ++ evs),
      out, ?_, ?_, ?_⟩
    · simp [runTask, hbody]
    · simpa [List.countP_cons, isCompletedTrue] using hbodycount
    · simp [runTask, hbody, List.countP_append, List.countP_cons, isCompletedTrue, hcount]
  | false =>
    rcases hinit with h | h
    · exact absurd h (by simp)
    · subst h
      refine ⟨Event.execution_started :: Event.initializing
          :: ([Event.step ctxDesc "in_progress", Event.step ctxDesc "completed",
               Event.step agentDesc "in_progress", Event.step agentDesc "completed"] ++ evs),
        out, ?_, ?_, ?_⟩
      · simp [runTask, hbody]
      · simpa [List.countP_cons, isCompletedTrue] using hbodycount
      · simp [runTask, hbody, List.countP_append, List.countP_cons, isCompletedTrue, hcount]

theorem success_completed_event_once_and_last_witness :
    ((true : Bool) = true ∨ (none : Option String) = none) ∧
    SetupResult.ok = SetupResult.ok ∧
    (∃ k, 1 ≤ k ∧ k ≤ 3 ∧ (firstTryAgent k).isErr = false) ∧
    (∃ evs out, (runTask true none SetupResult.ok firstTryAgent noShot).1
        = evs ++ [Event.execution_completed true out] ∧
      evs.countP isCompletedTrue = 0 ∧
      (runTask true none SetupResult.ok firstTryAgent noShot).1.countP isCompletedTrue = 1) :=
  ⟨Or.inl rfl, rfl, ⟨1, by decide, by decide, rfl⟩,
   success_completed_event_once_and_last true none SetupResult.ok firstTryAgent noShot
     (Or.inl rfl) rfl ⟨1, by decide, by decide, rfl⟩⟩



/-- C6 counterexample: for an already-initialized executor with empty session
seed whose automation capability succeeds on the first invocation, `run_task`
emits 8 progress events, not the 3 the claim states (the claim's count ignores
the in-progress/completed `step` pairs around context creation, agent
construction and the attempt itself). -/
theorem first_try_success_emits_eight_events_not_three :
    (runTask true none SetupResult.ok firstTryAgent noShot).1.length = 8 ∧
    ¬ (runTask true none SetupResult.ok firstTryAgent noShot).1.length = 3 := by
  decide

/-- C6 amended: for an already-initialized executor whose capability succeeds
on attempt 1, `run_task` returns `success = true` with `attempts = 1`, and
emits, in order: `execution_started`, the in-progress/completed `step` pairs
for context creation and agent construction, the attempt's in-progress `step`,
then — exactly when a page is open in the context and the capture succeeds —
one `screenshot` event, then the attempt's completed `step` and a final
`execution_completed` with `success: True`; that is 8 events, or 9 when the
screenshot is captured. -/
theorem first_try_success_outcome_and_event_trace (agentR : Nat → AttemptResult)
    (shot : Nat → Bool) (r : Option String) (h1 : agentR 1 = AttemptResult.ok r) :
    runTask true none SetupResult.ok agentR shot =
      ([Event.execution_started,
        Event.step ctxDesc "in_progress", Event.step ctxDesc "completed",
        Event.step agentDesc "in_progress", Event.step agentDesc "completed",
        Event.step (attemptStepDesc 1 3) "in_progress"]
        ++ (if shot 1 then [Event.screenshot] else [])
        ++ [Event.step (attemptStepDesc 1 3) "completed",
            Event.execution_completed true (r.getD "Task completed")],
       Except.ok { success := true, output := some (r.getD "Task completed"),
                   error := none, attempts := some 1 }) ∧
    (runTask true none SetupResult.ok agentR shot).1.length
      = 8 + (if shot 1 then 1 else 0) := by
  cases hs : shot 1 <;>
    simp [runTask, runTaskBody, runTaskWithRetry, retryFrom, h1, hs]

theorem first_try_success_outcome_and_event_trace_witness :
    firstTryAgent 1 = AttemptResult.ok (some "done") ∧
    ((runTask true none SetupResult.ok firstTryAgent (fun _ => true) =
      ([Event.execution_started,
        Event.step ctxDesc "in_progress", Event.step ctxDesc "completed",
        Event.step agentDesc "in_progress", Event.step agentDesc "completed",
        Event.step (attemptStepDesc 1 3) "in_progress"]
        ++ (if (fun _ => true) 1 then [Event.screenshot] else [])
        ++ [Event.step (attemptStepDesc 1 3) "completed",
            Event.execution_completed true ((some "done").getD "Task completed")],
       Except.ok { success := true, output := some ((some "done").getD "Task completed"),
                   error := none, attempts := some 1 })) ∧
     (runTask true none SetupResult.ok firstTryAgent (fun _ => true)).1.length
       = 8 + (if (fun _ => true) 1 then 1 else 0)) :=
  ⟨rfl, first_try_success_outcome_and_event_trace firstTryAgent (fun _ => true) (some "done") rfl⟩



/-- A `StatusChanged` log entry as decoded by `BlockchainListener.listen_for_events`
(`src/backend/services/blockchain_listener.py`): the indexed user address, the two
`uint8` status values, and the block height the ledger recorded it at. -/
structure ChainEvent where
  user : String
  oldStatus : Nat
  newStatus : Nat
  block : Int
  deriving Repr, DecidableEq

/-- `self.contract.events.StatusChanged.get_logs(fromBlock=..., toBlock=...)` over a
fixed chain history: the logs whose block lies in the inclusive window. -/
def getLogs (chain : List ChainEvent) (fromBlock toBlock : Int) : List ChainEvent :=
  chain.filter (fun e => decide (fromBlock ≤ e.block ∧ e.block ≤ toBlock))

/-- The observable actions of one polling cycle. -/
inductive WatcherAction where
  | query (fromBlock toBlock : Int)
  | dispatch (e : ChainEvent)
  | sleep (secs : Nat)
  deriving Repr, DecidableEq

/-- What the ledger does during one cycle: a successful height read, or any
exception inside the cycle body. -/
inductive CycleInput where
  | ok (currentBlock : Int)
  | failed
  deriving Repr, DecidableEq

/-- One iteration of the `while self.is_listening` body in
`BlockchainListener.listen_for_events`: read the height, query the
`[max(0, current_block - 100), current_block]` window, spawn one handler task per
log found, sleep 10 s; when anything in the body raises, the `except` logs and
sleeps 30 s instead. -/
def cycleActions (chain : List ChainEvent) : CycleInput → List WatcherAction
  | .ok currentBlock =>
      let fromBlock := max 0 (currentBlock - 100)
      WatcherAction.query fromBlock currentBlock
        :: (getLogs chain fromBlock currentBlock).map WatcherAction.dispatch
        ++ [WatcherAction.sleep 10]
  | .failed => [WatcherAction.sleep 30]

/-- The polling loop, fuel-bounded: cycle `i` runs only while `listening i` (the
value `self.is_listening` has when cycle `i` starts; `stop_listening` clears it);
`input i` abstracts the ledger during cycle `i`.  Returns every executed cycle's
actions tagged with its index, and `some j` when the loop exited because the stop
flag was already cleared at cycle `j` (`none` when the fuel ran out with the loop
still running). -/
def listenCycles (chain : List ChainEvent) (listening : Nat → Bool)
    (input : Nat → CycleInput) : Nat → Nat → List (Nat × WatcherAction) × Option Nat
  | 0, _ => ([], none)
  | fuel + 1, i =>
      if listening i then
        let rest := listenCycles chain listening input fuel (i + 1)
        ((cycleActions chain (input i)).map (fun a => (i, a)) ++ rest.1, rest.2)
      else ([], some i)

theorem mem_listenCycles (chain : List ChainEvent) (listening : Nat → Bool)
    (input : Nat → CycleInput) : ∀ fuel start i a,
    (i, a) ∈ (listenCycles chain listening input fuel start).1 →
    listening i = true ∧ a ∈ cycleActions chain (input i) := by
  intro fuel
  induction fuel with
  | zero => intro start i a h; simp [listenCycles] at h
  | succ n ih =>
    intro start i a h
    by_cases hl : listening start = true
    · simp only [listenCycles, hl, if_true, List.mem_append] at h
      rcases h with h | h
      · simp only [List.mem_map] at h
        obtain ⟨b, hb, heq⟩ := h
        rw [Prod.ext_iff] at heq
        obtain ⟨h1, h2⟩ := heq
        subst h1; subst h2
        exact ⟨hl, hb⟩
      · exact ih (start + 1) i a h
    · have hl' : listening start = false := by revert hl; cases listening start <;> simp
      simp [listenCycles, hl'] at h

theorem listenCycles_stop (chain : List ChainEvent) (listening : Nat → Bool)
    (input : Nat → CycleInput) : ∀ fuel start j,
    (listenCycles chain listening input fuel start).2 = some j → listening j = false := by
  intro fuel
  induction fuel with
  | zero => intro start j h; simp [listenCycles] at h
  | succ n ih =>
    intro start j h
    by_cases hl : listening start = true
    · simp only [listenCycles, hl, if_true] at h
      exact ih (start + 1) j h
    · have hl' : listening start = false := by revert hl; cases listening start <;> simp
      simp only [listenCycles, hl', Bool.false_eq_true, if_false, Option.some.injEq] at h
      rw [← h]; exact hl'

theorem listenCycles_no_stop (chain : List ChainEvent) (listening : Nat → Bool)
    (input : Nat → CycleInput) (hall : ∀ j, listening j = true) :
    ∀ fuel start, (listenCycles chain listening input fuel start).2 = none := by
  intro fuel
  induction fuel with
  | zero => intro start; simp [listenCycles]
  | succ n ih =>
    intro start
    simp only [listenCycles, hall start, if_true]
    exact ih (start + 1)

theorem query_mem_cycleActions {chain : List ChainEvent} {f t : Int} {ci : CycleInput} :
    WatcherAction.query f t ∈ cycleActions chain ci →
    ∃ cb, ci = CycleInput.ok cb ∧ t = cb ∧ f = max 0 (cb - 100) := by
  cases ci with
  | ok cb =>
    intro h
    simp [cycleActions] at h
    exact ⟨cb, rfl, h.2, h.1⟩
  | failed => intro h; simp [cycleActions] at h

theorem sleep_mem_cycleActions {chain : List ChainEvent} {s : Nat} {ci : CycleInput} :
    WatcherAction.sleep s ∈ cycleActions chain ci →
    (ci = CycleInput.failed ∧ s = 30) ∨ (∃ cb, ci = CycleInput.ok cb ∧ s = 10) := by
  cases ci with
  | ok cb => intro h; simp [cycleActions] at h; exact Or.inr ⟨cb, rfl, h⟩
  | failed => intro h; simp [cycleActions] at h; exact Or.inl ⟨rfl, h⟩

/-- C8: every executed polling cycle of `listen_for_events` queries exactly the
lookback window `[max(0, current_block - 100), current_block]`, sleeps 10 s
after a normal cycle and 30 s after a failed one, and the loop exits only when
the listening flag has been cleared by an explicit stop — in particular it
never exits while the flag stays set, however many cycles fail. -/
theorem watcher_window_sleep_and_stop (chain : List ChainEvent)
    (listening : Nat → Bool) (input : Nat → CycleInput) (fuel start : Nat) :
    (∀ i f t, (i, WatcherAction.query f t) ∈ (listenCycles chain listening input fuel start).1 →
        listening i = true ∧ input i = CycleInput.ok t ∧ f = max 0 (t - 100)) ∧
    (∀ i s, (i, WatcherAction.sleep s) ∈ (listenCycles chain listening input fuel start).1 →
        (input i = CycleInput.failed ∧ s = 30) ∨
        (∃ h, input i = CycleInput.ok h ∧ s = 10)) ∧
    (∀ j, (listenCycles chain listening input fuel start).2 = some j →
        listening j = false) ∧
    ((∀ j, listening j = true) → (listenCycles chain listening input fuel start).2 = none) := by
  refine ⟨?_, ?_, ?_, ?_⟩
  · intro i f t hmem
    obtain ⟨hl, ha⟩ := mem_listenCycles chain listening input fuel start i _ hmem
    obtain ⟨cb, hci, rfl, hf⟩ := query_mem_cycleActions ha
    exact ⟨hl, hci, hf⟩
  · intro i s hmem
    obtain ⟨hl, ha⟩ := mem_listenCycles chain listening input fuel start i _ hmem
    rcases sleep_mem_cycleActions ha with ⟨hci, hs⟩ | ⟨cb, hci, hs⟩
    · exact Or.inl ⟨hci, hs⟩
    · exact Or.inr ⟨cb, hci, hs⟩
  · exact fun j => listenCycles_stop chain listening input fuel start j
  · exact fun hall => listenCycles_no_stop chain listening input hall fuel start


theorem watcher_window_sleep_and_stop_witness :
    (listenCycles [] (fun _ => true) (fun _ => CycleInput.failed) 5 0).2 = none :=
  (watcher_window_sleep_and_stop [] (fun _ => true) (fun _ => CycleInput.failed) 5 0).2.2.2
    (fun _ => rfl)

/-- A DECEASED transition recorded at block 50. -/
def exEvent : ChainEvent := { user := "0xabc", oldStatus := 1, newStatus := 2, block := 50 }

/-- C7: the watcher has no deduplication — with one `StatusChanged` log at
block 50 and two consecutive polling cycles reading heights 100 and 105, the
very same event is dispatched to a handler in cycle 0 and again in cycle 1, so
the DECEASED transition is processed (and its wills re-executed) more than once
per transition. -/
theorem same_event_dispatched_in_two_cycles :
    (0, WatcherAction.dispatch exEvent) ∈
      (listenCycles [exEvent] (fun _ => true)
        (fun i => if i = 0 then CycleInput.ok 100 else CycleInput.ok 105) 2 0).1 ∧
    (1, WatcherAction.dispatch exEvent) ∈
      (listenCycles [exEvent] (fun _ => true)
        (fun i => if i = 0 then CycleInput.ok 100 else CycleInput.ok 105) 2 0).1 := by
  decide



/-- ASCII lower-casing of one character: the effect of Python `str.lower()` on the
ASCII strings (hex wallet addresses) this store receives.  Written out as in the
Python semantics: code points 65..90 shift by 32, everything else is unchanged. -/
def asciiLowerChar (c : Char) : Char :=
  if 65 ≤ c.toNat ∧ c.toNat ≤ 90 then Char.ofNat (c.toNat + 32) else c

/-- Python `str.lower()` restricted to ASCII input. -/
def pyLower (s : String) : String :=
  String.mk (s.data.map asciiLowerChar)

theorem toNat_ofNat_valid {n : Nat} (h : n.isValidChar) : (Char.ofNat n).toNat = n := by
  rw [Char.ofNat, dif_pos h]
  rfl

theorem asciiLowerChar_idem (c : Char) : asciiLowerChar (asciiLowerChar c) = asciiLowerChar c := by
  by_cases h : 65 ≤ c.toNat ∧ c.toNat ≤ 90
  · have hvalid : (c.toNat + 32).isValidChar := Or.inl (by omega)
    have htn : (Char.ofNat (c.toNat + 32)).toNat = c.toNat + 32 := toNat_ofNat_valid hvalid
    have h1 : asciiLowerChar c = Char.ofNat (c.toNat + 32) := by
      simp only [asciiLowerChar, if_pos h]
    have h2 : ¬ (65 ≤ (Char.ofNat (c.toNat + 32)).toNat ∧
        (Char.ofNat (c.toNat + 32)).toNat ≤ 90) := by
      rw [htn]; omega
    rw [h1]
    simp only [asciiLowerChar, if_neg h2]
  · have h1 : asciiLowerChar c = c := by simp only [asciiLowerChar, if_neg h]
    rw [h1, h1]

theorem pyLower_idem (s : String) : pyLower (pyLower s) = pyLower s := by
  have hmap : asciiLowerChar ∘ asciiLowerChar = asciiLowerChar :=
    funext fun c => asciiLowerChar_idem c
  simp only [pyLower, List.map_map, hmap]

/-- The fields of a will submission (`will_data` in
`DigitalWillService.save_will`, `src/backend/services/database.py`); `createdAt`
and `totpSecret` are the optional keys read with `.get`. -/
structure WillData where
  websiteUrl : String
  username : String
  encryptedPassword : String
  passwordHash : String
  instruction : String
  createdAt : Option String
  totpSecret : Option String
  deriving Repr, DecidableEq

/-- A stored will entry, as `save_will` constructs it. -/
structure WillEntry where
  id : String
  userAddress : String
  websiteUrl : String
  username : String
  encryptedPassword : String
  passwordHash : String
  instruction : String
  createdAt : String
  totpSecret : Option String
  deriving Repr, DecidableEq

/-- The entry `DigitalWillService.save_will` appends: id counts the store, the
user address is stored lower-cased, `createdAt` defaults to the current time
(`now` stands for `datetime.utcnow().isoformat()`). -/
def saveWillEntry (userAddress : String) (d : WillData) (now : String)
    (db : List WillEntry) : WillEntry :=
  { id := "will_" ++ toString (db.length + 1),
    userAddress := pyLower userAddress,
    websiteUrl := d.websiteUrl,
    username := d.username,
    encryptedPassword := d.encryptedPassword,
    passwordHash := d.passwordHash,
    instruction := d.instruction,
    createdAt := d.createdAt.getD now,
    totpSecret := d.totpSecret }

/-- `DigitalWillService.save_will`: the updated store and the returned id. -/
def save_will (userAddress : String) (d : WillData) (now : String)
    (db : List WillEntry) : List WillEntry × String :=
  let entry := saveWillEntry userAddress d now db
  (db ++ [entry], entry.id)

/-- `DigitalWillService.get_wills_by_user`: entries whose stored address matches
the query address, both lower-cased. -/
def get_wills_by_user (userAddress : String) (db : List WillEntry) : List WillEntry :=
  db.filter (fun w => pyLower w.userAddress == pyLower userAddress)

/-- C10: will-store lookup is case-insensitive on the subject address —
`save_will` stores the address lower-cased, `get_wills_by_user` lower-cases
both sides before comparing, so an entry saved under address `A` is returned
for any query address `B` that equals `A` up to ASCII letter case. -/
theorem case_insensitive_will_lookup (db : List WillEntry) (A B : String)
    (d : WillData) (now : String) (h : pyLower A = pyLower B) :
    saveWillEntry A d now db ∈ get_wills_by_user B (save_will A d now db).1 := by
  have hpred : (pyLower (saveWillEntry A d now db).userAddress == pyLower B) = true := by
    show (pyLower (pyLower A) == pyLower B) = true
    rw [pyLower_idem, h]
    simp
  simp only [get_wills_by_user, save_will, List.filter_append, List.mem_append]
  right
  simp [hpred]

def exWillData : WillData :=
  { websiteUrl := "https://example.com", username := "alice",
    encryptedPassword := "ct", passwordHash := "h", instruction := "close account",
    createdAt := none, totpSecret := none }

theorem case_insensitive_will_lookup_witness :
    pyLower "0xAbC" = pyLower "0XaBc" ∧
    saveWillEntry "0xAbC" exWillData "t0" [] ∈
      get_wills_by_user "0XaBc" (save_will "0xAbC" exWillData "t0" []).1 :=
  ⟨by decide, case_insensitive_will_lookup [] "0xAbC" "0XaBc" exWillData "t0" (by decide)⟩


theorem data_append (a b : String) : (a ++ b).data = a.data ++ b.data := rfl

/-- What processing one will came to. -/
inductive WillOutcome where
  | skippedDecrypt
  | execCompleted (success : Bool)
  | execRaised (msg : String)
  deriving Repr, DecidableEq

/-- The `try:` body of `BlockchainListener._process_will_entry`
(`src/backend/services/blockchain_listener.py`): `decrypt w` is the value
`lit_decryption_service.decrypt_credential` returns for this will (that service
catches its own exceptions and returns `None`, modelled `none`); a falsy
decrypted password is logged and aborts just this will; `runExec w pw` is what
`executor.run_task` does for the session built from the will and `pw`
(`Except.error` when an exception escapes `run_task`).  An `Except.error`
result is an exception reaching the handler at the bottom of
`_process_will_entry`. -/
def processWillBody (decrypt : WillEntry → Option String)
    (runExec : WillEntry → String → Except String Outcome) (w : WillEntry) :
    Except String WillOutcome :=
  match decrypt w with
  | none => .ok .skippedDecrypt
  | some pw =>
      if pw = "" then .ok .skippedDecrypt
      else
        match runExec w pw with
        | .error msg => .error msg
        | .ok out => .ok (.execCompleted out.success)

/-- `BlockchainListener._process_will_entry`: its trailing `except Exception`
logs any exception and returns, so the caller never sees one. -/
def processWillEntry (decrypt : WillEntry → Option String)
    (runExec : WillEntry → String → Except String Outcome) (w : WillEntry) :
    WillOutcome :=
  match processWillBody decrypt runExec w with
  | .ok o => o
  | .error msg => .execRaised msg

/-- The `for will in wills:` loop in the DECEASED branch of
`BlockchainListener._handle_status_changed`, which awaits
`_process_will_entry` for each stored will in order (the surrounding `try:`
never fires because `_process_will_entry` never raises; the `if not wills:`
early return coincides with the nil case). -/
def handleDeceasedWills (decrypt : WillEntry → Option String)
    (runExec : WillEntry → String → Except String Outcome) :
    List WillEntry → List (String × WillOutcome)
  | [] => []
  | w :: rest =>
      (w.id, processWillEntry decrypt runExec w) :: handleDeceasedWills decrypt runExec rest

/-- C4: when a DECEASED subject has several stored wills, every one of them is
attempted: the outcome list covers the wills one-for-one and in order, and each
will's outcome is `processWillEntry` of that will alone — a failed or refused
unseal (or any exception while processing one will) is absorbed inside that
will's processing and never stops the loop over the remaining wills. -/
theorem deceased_processes_every_will (decrypt : WillEntry → Option String)
    (runExec : WillEntry → String → Except String Outcome) (wills : List WillEntry) :
    (handleDeceasedWills decrypt runExec wills).map Prod.fst = wills.map WillEntry.id ∧
    ∀ w ∈ wills, (w.id, processWillEntry decrypt runExec w)
        ∈ handleDeceasedWills decrypt runExec wills := by
  induction wills with
  | nil => simp [handleDeceasedWills]
  | cons w rest ih =>
    obtain ⟨ih1, ih2⟩ := ih
    constructor
    · simp [handleDeceasedWills, ih1]
    · intro v hv
      rcases List.mem_cons.mp hv with rfl | hv
      · exact List.mem_cons_self _ _
      · exact List.mem_cons_of_mem _ (ih2 v hv)

def exWillRefused : WillEntry :=
  { id := "will_1", userAddress := "0xabc", websiteUrl := "https://a.example",
    username := "u1", encryptedPassword := "c1", passwordHash := "h1",
    instruction := "close account", createdAt := "t1", totpSecret := none }

def exWillOk : WillEntry :=
  { id := "will_2", userAddress := "0xabc", websiteUrl := "https://b.example",
    username := "u2", encryptedPassword := "c2", passwordHash := "h2",
    instruction := "notify contacts", createdAt := "t2", totpSecret := none }

def exDecrypt : WillEntry → Option String :=
  fun w => if w.id = "will_1" then none else some "pw"

def exRunExec : WillEntry → String → Except String Outcome :=
  fun _ _ => .ok { success := true, output := some "done", error := none, attempts := some 1 }

theorem deceased_processes_every_will_witness :
    (handleDeceasedWills exDecrypt exRunExec [exWillRefused, exWillOk]).map Prod.fst
        = [exWillRefused, exWillOk].map WillEntry.id ∧
    ∀ w ∈ [exWillRefused, exWillOk],
      (w.id, processWillEntry exDecrypt exRunExec w)
        ∈ handleDeceasedWills exDecrypt exRunExec [exWillRefused, exWillOk] :=
  deceased_processes_every_will exDecrypt exRunExec [exWillRefused, exWillOk]


/-- The f-string template `BlockchainListener._process_will_entry` builds as
`task_description` (the triple-quoted literal keeps its newlines and 12-space
indentation, including the trailing spaces on its blank lines). -/
def buildTaskDescription (websiteUrl instruction : String) : String :=
  "\n            Execute the following instruction on " ++ websiteUrl
    ++ ":\n            \n            " ++ instruction
    ++ "\n            \n            You have been provided with login credentials (username and password).\n            If you encounter a 2FA/TOTP screen, use the TOTP secret to generate the code.\n            Complete the task as specified in the instruction.\n            "

/-- The block `DigitalExecutor._enhance_task_with_2fa` appends when a truthy
`totpSecret` is present; `codeText` interpolates
`self.totp_handler.generate_totp(totp_secret)` (the string `"None"` when
generation failed). -/
def twoFaBlock (codeText totpSecret : String) : String :=
  "\n\nIMPORTANT - 2FA HANDLING:\nIf you encounter a Two-Factor Authentication (2FA) or TOTP screen:\n1. Look for input fields labeled \"verification code\", \"2FA code\", \"TOTP\", \"authenticator code\", etc.\n2. Use the following TOTP code: "
    ++ codeText
    ++ "\n3. If the code expires, generate a new one using the TOTP secret: "
    ++ totpSecret
    ++ "\n4. Enter the code and proceed with the task.\n\nThe TOTP code changes every 30 seconds. If you need a new code, wait a moment and generate another one.\n"

/-- `DigitalExecutor._enhance_task_with_2fa`: `sessionTotpSecret` is
`session_data.get("totpSecret")`, with `none` also covering a falsy or absent
`session_data`; the `if` reproduces the truthiness test `session_data and
session_data.get("totpSecret")`; `genCode` abstracts
`TotpHandler.generate_totp` on the base32 secret string. -/
def enhanceTaskWith2fa (genCode : String → Option String) (taskDescription : String)
    (sessionTotpSecret : Option String) : String :=
  match sessionTotpSecret with
  | none => taskDescription
  | some secret =>
      if secret = "" then taskDescription
      else taskDescription ++ twoFaBlock (pyStr (genCode secret)) secret

/-- The `totpSecret` entry `_process_will_entry` puts into the session data:
present exactly when the stored will's `totpSecret` is truthy. -/
def willSessionTotpSecret (w : WillEntry) : Option String :=
  match w.totpSecret with
  | none => none
  | some s => if s = "" then none else some s

/-- The instruction text `run_task` hands to the automation `Agent` for a will
processed by the listener: the listener's task template, then the 2FA
enhancement applied by the executor. -/
def handedInstruction (genCode : String → Option String) (w : WillEntry) : String :=
  enhanceTaskWith2fa genCode (buildTaskDescription w.websiteUrl w.instruction)
    (willSessionTotpSecret w)

/-- Substring containment, on the underlying character lists. -/
def containsText (pat s : String) : Prop :=
  pat.data <:+: s.data

instance (pat s : String) : Decidable (containsText pat s) :=
  List.decidableInfix pat.data s.data

set_option maxRecDepth 8192 in
/-- C5 counterexample: for a stored will with no TOTP seed, the instruction
text handed to the automation capability still contains 2FA/TOTP handling text
— the listener's fixed task template always includes the sentence
"If you encounter a 2FA/TOTP screen, use the TOTP secret to generate the
code.", with or without a seed. -/
theorem no_totp_instruction_still_mentions_2fa :
    willSessionTotpSecret exWillRefused = none ∧
    containsText "2FA/TOTP" (handedInstruction (fun _ => none) exWillRefused) := by
  constructor
  · rfl
  · decide

set_option maxRecDepth 8192 in
/-- C5 amended: when the will carries no TOTP seed, the executor appends no
2FA enhancement block — the text handed to the automation capability is exactly
the listener's task template, unchanged (so it contains no generated TOTP code
or secret); that fixed template itself, however, always mentions 2FA/TOTP. -/
theorem no_totp_appends_no_enhancement (genCode : String → Option String)
    (w : WillEntry) (h : w.totpSecret = none) :
    handedInstruction genCode w = buildTaskDescription w.websiteUrl w.instruction ∧
    containsText "2FA/TOTP" (buildTaskDescription w.websiteUrl w.instruction) := by
  constructor
  · simp [handedInstruction, willSessionTotpSecret, h, enhanceTaskWith2fa]
  · show _ <:+: _
    have htail : ("2FA/TOTP" : String).data
        <:+: ("\n            \n            You have been provided with login credentials (username and password).\n            If you encounter a 2FA/TOTP screen, use the TOTP secret to generate the code.\n            Complete the task as specified in the instruction.\n            " : String).data := by
      decide
    have hshape : (buildTaskDescription w.websiteUrl w.instruction).data
        = (("\n            Execute the following instruction on " ++ w.websiteUrl
            ++ ":\n            \n            " ++ w.instruction).data)
          ++ ("\n            \n            You have been provided with login credentials (username and password).\n            If you encounter a 2FA/TOTP screen, use the TOTP secret to generate the code.\n            Complete the task as specified in the instruction.\n            " : String).data := by
      simp [buildTaskDescription, data_append, List.append_assoc]
    rw [hshape]
    refine htail.trans ⟨("\n            Execute the following instruction on " ++ w.websiteUrl
      ++ ":\n            \n            " ++ w.instruction).data, [], ?_⟩
    rw [List.append_nil]

theorem no_totp_appends_no_enhancement_witness :
    exWillOk.totpSecret = none ∧
    (handedInstruction (fun _ => none) exWillOk
        = buildTaskDescription exWillOk.websiteUrl exWillOk.instruction ∧
     containsText "2FA/TOTP" (buildTaskDescription exWillOk.websiteUrl exWillOk.instruction)) :=
  ⟨rfl, no_totp_appends_no_enhancement (fun _ => none) exWillOk rfl⟩



/-- 32-bit rotate left of a word below `2 ^ 32`. -/
def rotl32 (n x : Nat) : Nat :=
  ((x <<< n) ||| (x >>> (32 - n))) % 2 ^ 32

/-- Big-endian 32-bit words from a byte list (length a multiple of 4). -/
def bytesToWords : List Nat → List Nat
  | b0 :: b1 :: b2 :: b3 :: rest =>
      (((b0 * 256 + b1) * 256 + b2) * 256 + b3) :: bytesToWords rest
  | _ => []

/-- Big-endian bytes of a 32-bit word. -/
def wordToBytes (w : Nat) : List Nat :=
  [w / 2 ^ 24 % 256, w / 2 ^ 16 % 256, w / 2 ^ 8 % 256, w % 256]

/-- `n`-byte big-endian encoding of `x` (used for the SHA-1 length field and for
pyotp's `int_to_bytestring`, the 8-byte big-endian HOTP counter). -/
def natToBytesBE (nBytes x : Nat) : List Nat :=
  (List.range nBytes).map (fun i => x / 2 ^ (8 * (nBytes - 1 - i)) % 256)

/-- SHA-1 padding: `0x80`, zeros to 56 mod 64, then the 64-bit bit length. -/
def sha1Pad (msg : List Nat) : List Nat :=
  msg ++ [128] ++ List.replicate ((119 - msg.length % 64) % 64) 0
    ++ natToBytesBE 8 (8 * msg.length)

/-- Split into 64-byte chunks (fuel-structural so that it reduces in the
kernel; one chunk consumes at least one byte, so `l.length` is enough fuel). -/
def chunksOf64Fuel : Nat → List Nat → List (List Nat)
  | 0, _ => []
  | _ + 1, [] => []
  | fuel + 1, b :: rest =>
      (b :: rest).take 64 :: chunksOf64Fuel fuel ((b :: rest).drop 64)

/-- Split into 64-byte chunks. -/
def chunksOf64 (l : List Nat) : List (List Nat) :=
  chunksOf64Fuel l.length l

/-- Message-schedule extension to 80 words, kept reversed while building:
`w[i] = rotl1 (w[i-3] xor w[i-8] xor w[i-14] xor w[i-16])`. -/
def sha1Extend (ws : List Nat) : List Nat :=
  ((List.range 64).foldl
    (fun rev _ =>
      rotl32 1 ((((rev.getD 2 0) ^^^ (rev.getD 7 0)) ^^^ (rev.getD 13 0)) ^^^ (rev.getD 15 0))
        :: rev)
    ws.reverse).reverse

/-- SHA-1 round function. -/
def sha1F (i b c d : Nat) : Nat :=
  if i < 20 then (b &&& c) ||| ((b ^^^ 4294967295) &&& d)
  else if i < 40 then (b ^^^ c) ^^^ d
  else if i < 60 then ((b &&& c) ||| (b &&& d)) ||| (c &&& d)
  else (b ^^^ c) ^^^ d

/-- SHA-1 round constant. -/
def sha1K (i : Nat) : Nat :=
  if i < 20 then 1518500249
  else if i < 40 then 1859775393
  else if i < 60 then 2400959708
  else 3395469782

/-- One SHA-1 round: state is `(round index, a, b, c, d, e)`. -/
def sha1RoundStep (st : Nat × Nat × Nat × Nat × Nat × Nat) (w : Nat) :
    Nat × Nat × Nat × Nat × Nat × Nat :=
  match st with
  | (i, a, b, c, d, e) =>
      (i + 1, (rotl32 5 a + sha1F i b c d + e + sha1K i + w) % 2 ^ 32,
       a, rotl32 30 b, c, d)

/-- SHA-1 compression of one 64-byte chunk into the 5-word state. -/
def sha1Compress (h : List Nat) (chunk : List Nat) : List Nat :=
  let h0 := h.getD 0 0
  let h1 := h.getD 1 0
  let h2 := h.getD 2 0
  let h3 := h.getD 3 0
  let h4 := h.getD 4 0
  match (sha1Extend (bytesToWords chunk)).foldl sha1RoundStep (0, h0, h1, h2, h3, h4) with
  | (_, a, b, c, d, e) =>
      [(h0 + a) % 2 ^ 32, (h1 + b) % 2 ^ 32, (h2 + c) % 2 ^ 32,
       (h3 + d) % 2 ^ 32, (h4 + e) % 2 ^ 32]

/-- SHA-1 of a byte list, as a 20-byte list. -/
def sha1 (msg : List Nat) : List Nat :=
  (((chunksOf64 (sha1Pad msg)).foldl sha1Compress
      [1732584193, 4023233417, 2562383102, 271733878, 3285377520]).map wordToBytes).flatten

/-- HMAC-SHA1 (`hmac.new(key, msg, hashlib.sha1)` as used by pyotp). -/
def hmacSha1 (key msg : List Nat) : List Nat :=
  let k0 := if 64 < key.length then sha1 key else key
  let k := k0 ++ List.replicate (64 - k0.length) 0
  sha1 ((k.map (fun b => b ^^^ 92)) ++ sha1 ((k.map (fun b => b ^^^ 54)) ++ msg))

/-- pyotp `OTP.generate_otp` with 6 digits: HMAC-SHA1 of the 8-byte big-endian
counter, dynamic truncation, modulo `10 ^ 6`.  `key` is the byte string pyotp
obtains by base32-decoding the configured secret. -/
def hotp (key : List Nat) (counter : Nat) : Nat :=
  let mac := hmacSha1 key (natToBytesBE 8 counter)
  let off := mac.getD 19 0 % 16
  ((mac.getD off 0 % 128) * 2 ^ 24 + mac.getD (off + 1) 0 * 2 ^ 16
    + mac.getD (off + 2) 0 * 2 ^ 8 + mac.getD (off + 3) 0) % 10 ^ 6

/-- The 6-digit zero-padded code string pyotp produces
(`str(10_000_000_000 + code)[-6:]`). -/
def zeroPad6 (n : Nat) : String :=
  let s := toString (n % 10 ^ 6)
  String.mk (List.replicate (6 - s.length) (Char.ofNat 48)) ++ s

/-- `TotpHandler.generate_totp` for a secret that decodes to `key`
(`src/backend/services/totp_handler.py`): `pyotp.TOTP(secret).now()` at Unix
time `t`, with the default 30-second interval (`timecode = int(t / 30)`). -/
def totpNow (key : List Nat) (t : Nat) : String :=
  zeroPad6 (hotp key (t / 30))

/-- `TotpHandler.verify_totp`: `pyotp.TOTP(secret).verify(code, valid_window=1)`
at Unix time `t` compares `code` against the codes at counter offsets
`-1, 0, +1` in that order; when the timecode is `0` the `-1` offset makes
`generate_otp` raise on a negative input, the handler's `except` catches it and
the function returns `False`. -/
def verifyTotp (key : List Nat) (code : String) (t : Nat) : Bool :=
  let timecode := t / 30
  if timecode = 0 then false
  else (code == zeroPad6 (hotp key (timecode - 1)))
    || (code == zeroPad6 (hotp key timecode))
    || (code == zeroPad6 (hotp key (timecode + 1)))

/-- The RFC 4226 test key, the ASCII bytes of "12345678901234567890". -/
def rfcKey : List Nat :=
  [49, 50, 51, 52, 53, 54, 55, 56, 57, 48, 49, 50, 51, 52, 53, 54, 55, 56, 57, 48]



set_option maxRecDepth 30000 in
/-- Sanity check of the embedding against the RFC 4226 appendix D vectors. -/
theorem hotp_matches_rfc4226 :
    hotp rfcKey 0 = 755224 ∧ hotp rfcKey 1 = 287082 ∧ hotp rfcKey 9 = 520489 := by
  refine ⟨?_, ?_, ?_⟩ <;> decide

/-- The key bytes (ASCII of "k49475") exhibiting a truncated-code collision:
the 6-digit codes at counters 1 and 4 coincide. -/
def collisionKey : List Nat := [107, 52, 57, 52, 55, 53]

set_option maxRecDepth 60000 in
/-- C9 counterexample: the claim fails at explicit inputs.  For the key
"k49475" the 6-digit codes at counters 1 and 4 collide, so with `t = 30` the
code generated at `t` is accepted when verified at `t + 90`; and for the same
`t = 30`, verification at `t - 30 = 0` returns `false` (timecode 0 makes the
`-1` window offset raise, which `verify_totp` turns into `False`), not `true`
as the claim's `t - 30` clause requires for every `t`. -/
theorem totp_plus90_claim_fails :
    verifyTotp collisionKey (totpNow collisionKey 30) 120 = true ∧
    verifyTotp collisionKey (totpNow collisionKey 30) 0 = false := by
  refine ⟨?_, ?_⟩ <;> decide


/-- C9 amended: for every key and every time `t ≥ 60`, the code generated at
`t` verifies at `t`, at `t + 30` and at `t - 30`; and verification at `t + 90`
returns `false` provided the 6-digit code at counter `t/30` differs from the
codes at the three counters the `±1` window accepts there
(`t/30 + 2 .. t/30 + 4`) — the generic case, though not guaranteed, as the
counterexample's collision shows. -/
theorem totp_verify_window (key : List Nat) (t : Nat) (h : 60 ≤ t) :
    verifyTotp key (totpNow key t) t = true ∧
    verifyTotp key (totpNow key t) (t + 30) = true ∧
    verifyTotp key (totpNow key t) (t - 30) = true ∧
    ((zeroPad6 (hotp key (t / 30)) ≠ zeroPad6 (hotp key (t / 30 + 2)) ∧
      zeroPad6 (hotp key (t / 30)) ≠ zeroPad6 (hotp key (t / 30 + 3)) ∧
      zeroPad6 (hotp key (t / 30)) ≠ zeroPad6 (hotp key (t / 30 + 4))) →
      verifyTotp key (totpNow key t) (t + 90) = false) := by
  have hq : 2 ≤ t / 30 := (Nat.le_div_iff_mul_le (by norm_num)).mpr (by omega)
  have hx : (t + 30) / 30 = t / 30 + 1 := Nat.add_div_right t (by norm_num)
  have hy : (t + 90) / 30 = t / 30 + 3 := by
    have h1 : t + 90 = t + 30 + 30 + 30 := by omega
    rw [h1, Nat.add_div_right _ (by norm_num), Nat.add_div_right _ (by norm_num),
      Nat.add_div_right _ (by norm_num)]
  have hz : (t - 30) / 30 = t / 30 - 1 := by
    have hmod := Nat.div_add_mod t 30
    have hrlt : t % 30 < 30 := Nat.mod_lt _ (by norm_num)
    have h1 : t - 30 = 30 * (t / 30 - 1) + t % 30 := by omega
    rw [h1, Nat.mul_add_div (by norm_num), Nat.div_eq_of_lt hrlt, Nat.add_zero]
  refine ⟨?_, ?_, ?_, ?_⟩
  · simp only [verifyTotp, totpNow]
    rw [if_neg (by omega)]
    simp
  · simp only [verifyTotp, totpNow, hx]
    rw [if_neg (by omega)]
    have h1 : t / 30 + 1 - 1 = t / 30 := by omega
    rw [h1]
    simp
  · simp only [verifyTotp, totpNow, hz]
    rw [if_neg (by omega)]
    have h1 : t / 30 - 1 + 1 = t / 30 := by omega
    rw [h1]
    simp
  · intro hne
    have e1 : (zeroPad6 (hotp key (t / 30)) == zeroPad6 (hotp key (t / 30 + 2))) = false :=
      beq_eq_false_iff_ne.mpr hne.1
    have e2 : (zeroPad6 (hotp key (t / 30)) == zeroPad6 (hotp key (t / 30 + 3))) = false :=
      beq_eq_false_iff_ne.mpr hne.2.1
    have e3 : (zeroPad6 (hotp key (t / 30)) == zeroPad6 (hotp key (t / 30 + 4))) = false :=
      beq_eq_false_iff_ne.mpr hne.2.2
    have h1 : t / 30 + 3 - 1 = t / 30 + 2 := by omega
    simp only [verifyTotp, totpNow, hy]
    rw [if_neg (by omega), h1]
    simp [e1, e2, e3]

theorem totp_verify_window_witness :
    60 ≤ 60 ∧
    (verifyTotp rfcKey (totpNow rfcKey 60) 60 = true ∧
     verifyTotp rfcKey (totpNow rfcKey 60) (60 + 30) = true ∧
     verifyTotp rfcKey (totpNow rfcKey 60) (60 - 30) = true ∧
     ((zeroPad6 (hotp rfcKey (60 / 30)) ≠ zeroPad6 (hotp rfcKey (60 / 30 + 2)) ∧
       zeroPad6 (hotp rfcKey (60 / 30)) ≠ zeroPad6 (hotp rfcKey (60 / 30 + 3)) ∧
       zeroPad6 (hotp rfcKey (60 / 30)) ≠ zeroPad6 (hotp rfcKey (60 / 30 + 4))) →
       verifyTotp rfcKey (totpNow rfcKey 60) (60 + 90) = false)) :=
  ⟨by decide, totp_verify_window rfcKey 60 (by decide)⟩


end Passage
